import Mathlib

/-!
Shallow embedding of `src/bot.py` (TradingView → Alpaca crypto bot).

Prices, quantities and dollar amounts are modelled as rationals; Python's
`round(p, n)` (round half to even) is modelled by `roundHalfEven`/`roundTo`.
Broker interaction is modelled explicitly: every `alpaca.submit_order` /
`alpaca.cancel_order` call becomes an `Action` in an emitted action list,
fresh order ids are drawn from a counter in `BotState`, and broker reads
(`get_position`, price fetches, account equity/cash) are supplied by
environment records indexed by call order.  Broker submissions are modelled
as succeeding, so the dead `except` branches of the success path are not
reached; `get_qty`'s own exception swallowing is modelled by an `Except`
argument.
-/

namespace Bot

abbrev Pair := String
abbrev OrderId := Nat

/-- Python `round` to an integer: round half to even (banker's rounding). -/
def roundHalfEven (x : ℚ) : ℤ :=
  let f := Int.floor x
  let frac := x - (f : ℚ)
  if frac < 1/2 then f
  else if 1/2 < frac then f + 1
  else if f % 2 = 0 then f else f + 1

/-- Python `round(p, n)`. -/
def roundTo (n : ℕ) (p : ℚ) : ℚ :=
  ((roundHalfEven (p * (10 : ℚ) ^ n) : ℤ) : ℚ) / (10 : ℚ) ^ n

/-- bot.py line 167-168: `r(p) = round(p, 8 if p < 1 else 6)`. -/
def r (p : ℚ) : ℚ := if p < 1 then roundTo 8 p else roundTo 6 p

/-- Configuration constants of bot.py lines 48-66 (env-var overridable). -/
structure Config where
  MAX_POSITION_DOLLARS : ℚ
  MAX_IOC_SLIP_PCT : ℚ
  COOLDOWN_SECONDS : ℚ
  TV_PRICE_MAX_DEV : ℚ
  TP1_PCT : ℚ
  TP2_PCT : ℚ
  SL_PCT : ℚ
  STOP_LIMIT_SLIP_PCT : ℚ
  TP1_FRAC : ℚ
  TP2_FRAC : ℚ
  DAILY_PROFIT_STOP : ℚ
  DAILY_LOSS_STOP : ℚ
  MAX_TRADES_PER_DAY : ℕ
  MAX_LOSERS_PER_DAY : ℕ
deriving DecidableEq, Repr

/-- The default values of bot.py lines 48-66. -/
def defaultConfig : Config where
  MAX_POSITION_DOLLARS := 5000
  MAX_IOC_SLIP_PCT := 0.0015
  COOLDOWN_SECONDS := 60
  TV_PRICE_MAX_DEV := 0.0025
  TP1_PCT := 0.006
  TP2_PCT := 0.012
  SL_PCT := 0.009
  STOP_LIMIT_SLIP_PCT := 0.0015
  TP1_FRAC := 0.40
  TP2_FRAC := 0.40
  DAILY_PROFIT_STOP := 1100
  DAILY_LOSS_STOP := -600
  MAX_TRADES_PER_DAY := 6
  MAX_LOSERS_PER_DAY := 2

/-- One per-pair entry of `EXIT_ORDERS` (bot.py line 79): the Python dict
`{"tp1": id, "tp2": id, "sl": id}` with each key present or absent. -/
structure RegEntry where
  tp1 : Option OrderId
  tp2 : Option OrderId
  sl : Option OrderId
deriving DecidableEq, Repr

def emptyEntry : RegEntry := ⟨none, none, none⟩

/-- Arguments of an `alpaca.submit_order` call (bot.py). -/
structure OrderSpec where
  symbol : Pair
  side : String
  otype : String
  tif : String
  qty : ℚ
  limitPrice : Option ℚ
  stopPrice : Option ℚ
deriving DecidableEq, Repr

/-- A broker call emitted by the bot: a cancel of an order id, or a
submission that the broker answers with the given fresh order id. -/
inductive Action where
  | cancel (oid : OrderId)
  | submit (oid : OrderId) (spec : OrderSpec)
deriving DecidableEq, Repr

/-- In-memory state of bot.py: `STATE` (lines 71-77), `LAST_BUY_TS` (78),
`EXIT_ORDERS` (79), plus the fresh-order-id counter of the broker model. -/
structure BotState where
  exitOrders : List (Pair × RegEntry)
  nextId : ℕ
  day : Option String
  startEquity : Option ℚ
  disabled : Bool
  trades : ℕ
  losers : ℕ
  lastBuyTs : List (Pair × ℚ)
deriving DecidableEq, Repr

/-- Python `dict.get`. -/
def alookup {α : Type} (l : List (Pair × α)) (p : Pair) : Option α :=
  match l with
  | [] => none
  | (q, v) :: rest => if q = p then some v else alookup rest p

/-- Python `dict[key] = value` (update in place, or insert). -/
def aset {α : Type} (l : List (Pair × α)) (p : Pair) (v : α) : List (Pair × α) :=
  match l with
  | [] => [(p, v)]
  | (q, v0) :: rest => if q = p then (q, v) :: rest else (q, v0) :: aset rest p v

/-- Python `dict.pop(key, None)`: the dict with the key removed. -/
def apop {α : Type} (l : List (Pair × α)) (p : Pair) : List (Pair × α) :=
  match l with
  | [] => []
  | (q, v0) :: rest => if q = p then rest else (q, v0) :: apop rest p

/-- Python truthiness of a `float | None` value: `None` and `0.0` are falsy. -/
def truthy (o : Option ℚ) : Bool :=
  match o with
  | none => false
  | some x => decide (x ≠ 0)

/-- Python `a or b` on `float | None` values. -/
def pyOr (a b : Option ℚ) : Option ℚ := if truthy a then a else b

/-- bot.py line 161-165: `get_qty` returns the position quantity and maps any
exception from the broker lookup to `0.0`. -/
def get_qty (res : Except Unit ℚ) : ℚ :=
  match res with
  | .ok q => q
  | .error _ => 0

/-- bot.py line 170-171: `abs(cur - tv) / tv > TV_PRICE_MAX_DEV`. -/
def too_far_from_tv (cfg : Config) (cur tv : ℚ) : Bool :=
  decide (abs (cur - tv) / tv > cfg.TV_PRICE_MAX_DEV)

/-- Python `tv_price and tv_price > 0` (bot.py line 363). -/
def tvPos (o : Option ℚ) : Bool := truthy o && decide (0 < o.getD 0)

def ALLOWED_BASES : List String := ["BTC", "ETH", "SOL"]

/-- bot.py line 152-153: `pair.split("/")[0].upper()`: the characters before
the first `/` (the whole string when there is none), uppercased. -/
def base_of (pair : Pair) : String :=
  String.mk ((pair.data.takeWhile (fun c => c ≠ '/')).map Char.toUpper)

/-- bot.py line 155-156. -/
def allowed_pair (pair : Pair) : Bool := ALLOWED_BASES.contains (base_of pair)

/-- The order ids of a registry entry, in dict insertion order tp1, tp2, sl. -/
def entryIds (e : RegEntry) : List OrderId :=
  (match e.tp1 with | some i => [i] | none => []) ++
  (match e.tp2 with | some i => [i] | none => []) ++
  (match e.sl with | some i => [i] | none => [])

/-- bot.py line 202-207: pop the pair's registry entry and cancel each id. -/
def cancel_exits (pair : Pair) (st : BotState) : BotState × List Action :=
  match alookup st.exitOrders pair with
  | none => (st, [])
  | some e =>
      ({ st with exitOrders := apop st.exitOrders pair }, (entryIds e).map Action.cancel)

/-- bot.py line 209-211: cancel all exits when the read quantity is ≤ 0. -/
def cleanup_if_flat (pair : Pair) (qres : Except Unit ℚ) (st : BotState) :
    BotState × List Action :=
  if get_qty qres ≤ 0 then cancel_exits pair st else (st, [])

/-- bot.py line 243-285: `place_take_profits`.  Sizes the two tiers from the
configured fractions, scales both down proportionally when the raw sum
exceeds the quantity, rounds each with `r` and submits both as GTC limit
sells, recording the two fresh order ids under "tp1"/"tp2". -/
def place_take_profits (cfg : Config) (pair : Pair) (qty ref : ℚ) (st : BotState) :
    BotState × List Action :=
  if qty ≤ 0 then (st, [])
  else
    let tp1q0 := max 0 (qty * cfg.TP1_FRAC)
    let tp2q0 := max 0 (qty * cfg.TP2_FRAC)
    if tp1q0 ≤ 0 ∨ tp2q0 ≤ 0 then (st, [])
    else
      let scale := if tp1q0 + tp2q0 > qty then qty / (tp1q0 + tp2q0) else 1
      let tp1q := tp1q0 * scale
      let tp2q := tp2q0 * scale
      let tp1p := r (ref * (1 + cfg.TP1_PCT))
      let tp2p := r (ref * (1 + cfg.TP2_PCT))
      let id1 := st.nextId
      let id2 := st.nextId + 1
      let e := (alookup st.exitOrders pair).getD emptyEntry
      ({ st with
          exitOrders := aset st.exitOrders pair { e with tp1 := some id1, tp2 := some id2 }
          nextId := st.nextId + 2 },
       [Action.submit id1 ⟨pair, "sell", "limit", "gtc", r tp1q, some tp1p, none⟩,
        Action.submit id2 ⟨pair, "sell", "limit", "gtc", r tp2q, some tp2p, none⟩])

/-- bot.py line 287-311: `place_or_replace_stop`.  Cancels the registered
stop id when one exists, then submits a fresh stop-limit sell sized by the
given quantity and records its id under "sl". -/
def place_or_replace_stop (cfg : Config) (pair : Pair) (qty ref : ℚ) (st : BotState) :
    BotState × List Action :=
  if qty ≤ 0 then (st, [])
  else
    let ids := (alookup st.exitOrders pair).getD emptyEntry
    let cancelActs := match ids.sl with | some i => [Action.cancel i] | none => []
    let stop_price := r (ref * (1 - cfg.SL_PCT))
    let limit_price := r (stop_price * (1 - cfg.STOP_LIMIT_SLIP_PCT))
    let oid := st.nextId
    ({ st with
        exitOrders := aset st.exitOrders pair { ids with sl := some oid }
        nextId := st.nextId + 1 },
     cancelActs ++
       [Action.submit oid ⟨pair, "sell", "stop_limit", "gtc", r qty, some limit_price, some stop_price⟩])

/-- One body iteration of `reconcile_loop` (bot.py line 318-336) for one
registered pair, given that cycle's position read and price fetch. -/
def reconcile_pair (cfg : Config) (pair : Pair) (qres : Except Unit ℚ)
    (price : Option ℚ) (st : BotState) : BotState × List Action :=
  let q := get_qty qres
  if q ≤ 0 then cancel_exits pair st
  else if truthy price then place_or_replace_stop cfg pair q (price.getD 0) st
  else (st, [])

/-- Outcome status of `enforce_daily_governors` (bot.py line 112-135). -/
inductive GovStatus where
  | ok
  | disabledForDay
  | profitHit
  | lossHit
  | maxTradesHit
  | maxLosersHit
deriving DecidableEq, Repr

/-- bot.py line 98-105: lazy day rollover.  `dayKey` is the current UTC day
key and `equity` the account equity read during the reset. -/
def reset_day_if_needed (dayKey : String) (equity : ℚ) (st : BotState) : BotState :=
  if st.day ≠ some dayKey then
    { st with
        day := some dayKey
        startEquity := some equity
        disabled := false
        trades := 0
        losers := 0 }
  else st

/-- bot.py line 107-110: `daily_pnl` (captures the baseline lazily). -/
def daily_pnl (equity : ℚ) (st : BotState) : BotState × ℚ :=
  match st.startEquity with
  | none => ({ st with startEquity := some equity }, 0)
  | some s => (st, equity - s)

/-- bot.py line 112-135: `enforce_daily_governors`.  Returns the new state,
the allow flag, and the status of the first tripped condition. -/
def enforce_daily_governors (cfg : Config) (dayKey : String) (equity : ℚ)
    (st : BotState) : BotState × Bool × GovStatus :=
  let st1 := reset_day_if_needed dayKey equity st
  let out := daily_pnl equity st1
  let st2 := out.1
  let pnl := out.2
  if st2.disabled then (st2, false, .disabledForDay)
  else if cfg.DAILY_PROFIT_STOP ≤ pnl then ({ st2 with disabled := true }, false, .profitHit)
  else if pnl ≤ cfg.DAILY_LOSS_STOP then ({ st2 with disabled := true }, false, .lossHit)
  else if cfg.MAX_TRADES_PER_DAY ≤ st2.trades then ({ st2 with disabled := true }, false, .maxTradesHit)
  else if cfg.MAX_LOSERS_PER_DAY ≤ st2.losers then ({ st2 with disabled := true }, false, .maxLosersHit)
  else (st2, true, .ok)

/-- Result of `do_buy` (bot.py line 343-412), one constructor per return. -/
inductive BuyResult where
  | govBlocked (s : GovStatus)
  | skippedPairNotAllowed
  | skippedCooldown (wait : ℚ)
  | skippedAlreadyLong
  | errorNoCurrentPrice
  | skippedTvDeviation (current tv : ℚ)
  | errorNoCash
  | bought (qty refPrice : ℚ)
  | buySentNoPositionVisible
deriving DecidableEq, Repr

/-- Broker reads consumed by one `do_buy` call, in call order: `qtyReads n`
is the result of the (n+1)-th `get_position` lookup, `priceReads n` of the
(n+1)-th `get_crypto_price` fetch; `equity`/`cash` are the account reads and
`now`/`dayKey` the wall clock at the call. -/
structure BuyEnv where
  dayKey : String
  now : ℚ
  equity : ℚ
  cash : ℚ
  qtyReads : ℕ → Except Unit ℚ
  priceReads : ℕ → Option ℚ

/-- bot.py line 384-412: the bounded fill-wait loop of `do_buy` (14 attempts).
`k` is the index of the next `get_qty` read.  On the first attempt with a
positive quantity it places the take-profits and the stop and returns the
`bought` result built from the final quantity read; exhaustion returns the
`buy_sent_no_position_visible_yet` outcome. -/
def fillLoop (cfg : Config) (env : BuyEnv) (pair : Pair) (ref : ℚ)
    (fuel k : ℕ) (st : BotState) : BotState × List Action × BuyResult :=
  match fuel with
  | 0 => (st, [], .buySentNoPositionVisible)
  | fuel' + 1 =>
    let q := get_qty (env.qtyReads k)
    if 0 < q then
      let outTp := place_take_profits cfg pair q ref st
      let q_now := get_qty (env.qtyReads (k + 1))
      let ref_now := (pyOr (env.priceReads 2) (some ref)).getD 0
      let outSl := place_or_replace_stop cfg pair q_now ref_now outTp.1
      let qFinal := get_qty (env.qtyReads (k + 2))
      (outSl.1, outTp.2 ++ outSl.2, .bought qFinal ref)
    else fillLoop cfg env pair ref fuel' (k + 1) st

/-- bot.py line 343-412: `do_buy`.  Governor gate, allow-list, cooldown,
already-long check, price resolution and deviation guard, defensive exit
cleanup, IOC limit entry, then the fill-wait loop. -/
def do_buy (cfg : Config) (env : BuyEnv) (pair : Pair) (tvPrice : Option ℚ)
    (st : BotState) : BotState × List Action × BuyResult :=
  let gov := enforce_daily_governors cfg env.dayKey env.equity st
  let st1 := gov.1
  if gov.2.1 = false then (st1, [], .govBlocked gov.2.2)
  else if allowed_pair pair = false then (st1, [], .skippedPairNotAllowed)
  else
    let last := (alookup st1.lastBuyTs pair).getD 0
    if env.now - last < cfg.COOLDOWN_SECONDS then
      (st1, [], .skippedCooldown (roundTo 2 (cfg.COOLDOWN_SECONDS - (env.now - last))))
    else if 0 < get_qty (env.qtyReads 0) then (st1, [], .skippedAlreadyLong)
    else
      let cur := pyOr (env.priceReads 0) tvPrice
      if truthy cur = false then (st1, [], .errorNoCurrentPrice)
      else
        let curV := cur.getD 0
        if tvPos tvPrice && too_far_from_tv cfg curV (tvPrice.getD 0) then
          (st1, [], .skippedTvDeviation curV (tvPrice.getD 0))
        else
          let outA := cleanup_if_flat pair (env.qtyReads 1) st1
          let outB := cancel_exits pair outA.1
          let notional := max 0 (min cfg.MAX_POSITION_DOLLARS (env.cash * (95/100)))
          if notional ≤ 0 then (outB.1, outA.2 ++ outB.2, .errorNoCash)
          else
            let qtyReq := notional / curV
            let buyLimit := r (curV * (1 + cfg.MAX_IOC_SLIP_PCT))
            let buyId := outB.1.nextId
            let st4 : BotState :=
              { outB.1 with
                  nextId := outB.1.nextId + 1
                  lastBuyTs := aset outB.1.lastBuyTs pair env.now
                  trades := outB.1.trades + 1 }
            let ref := (pyOr (env.priceReads 1) (pyOr tvPrice (some curV))).getD 0
            let outL := fillLoop cfg env pair ref 14 2 st4
            (outL.1,
             outA.2 ++ outB.2 ++
               [Action.submit buyId ⟨pair, "buy", "limit", "ioc", r qtyReq, some buyLimit, none⟩] ++
               outL.2.1,
             outL.2.2)

/-- Result of `do_sell` (bot.py line 414-429). -/
inductive SellResult where
  | skippedNoPosition
  | errorNoCurrentPrice
  | sold (qty : ℚ)
deriving DecidableEq, Repr

/-- Broker reads consumed by one `do_sell` call, in call order. -/
structure SellEnv where
  qtyReads : ℕ → Except Unit ℚ
  priceReads : ℕ → Option ℚ

/-- bot.py line 414-429: `do_sell`.  Cancels registered exits before price
resolution; only then can it fail with the no-current-price error or submit
the IOC liquidation. -/
def do_sell (cfg : Config) (env : SellEnv) (pair : Pair) (tvPrice : Option ℚ)
    (st : BotState) : BotState × List Action × SellResult :=
  let outA := cleanup_if_flat pair (env.qtyReads 0) st
  let q := get_qty (env.qtyReads 1)
  if q ≤ 0 then
    let outB := cancel_exits pair outA.1
    (outB.1, outA.2 ++ outB.2, .skippedNoPosition)
  else
    let outB := cancel_exits pair outA.1
    let cur := pyOr (env.priceReads 0) tvPrice
    if truthy cur = false then (outB.1, outA.2 ++ outB.2, .errorNoCurrentPrice)
    else
      let curV := cur.getD 0
      let sellId := outB.1.nextId
      ({ outB.1 with nextId := outB.1.nextId + 1 },
       outA.2 ++ outB.2 ++
         [Action.submit sellId
           ⟨pair, "sell", "limit", "ioc", r q, some (r (curV * (1 - cfg.MAX_IOC_SLIP_PCT))), none⟩],
       .sold q)

/-- Live stop-limit orders at the broker for one pair, as a list of ids,
updated by one emitted action: a submit of a stop-limit sell on the pair
adds its id, a cancel removes the id. -/
def stepLiveStops (pair : Pair) (live : List OrderId) (a : Action) : List OrderId :=
  match a with
  | .cancel oid => live.erase oid
  | .submit oid spec =>
      if spec.symbol = pair && spec.otype = "stop_limit" then live ++ [oid] else live

def runLiveStops (pair : Pair) (live : List OrderId) (acts : List Action) : List OrderId :=
  acts.foldl (stepLiveStops pair) live

/-- The stop order id registered in the exit registry for a pair. -/
def regSl (st : BotState) (pair : Pair) : Option OrderId :=
  (alookup st.exitOrders pair).bind (fun e => e.sl)

/-- An optional order id as a zero- or one-element list. -/
def slL (o : Option OrderId) : List OrderId :=
  match o with
  | some i => [i]
  | none => []

/-- Successive gate evaluations: one `enforce_daily_governors` call per
listed equity reading, all under the same day key, threading the state. -/
def runGate (cfg : Config) (dayKey : String) (st : BotState) (es : List ℚ) : List Bool :=
  match es with
  | [] => []
  | e :: rest =>
      let out := enforce_daily_governors cfg dayKey e st
      out.2.1 :: runGate cfg dayKey out.1 rest

/-! Concrete fixtures used by counterexamples and witnesses. -/

/-- The initial in-memory state of bot.py (empty registries, day unset). -/
def st0 : BotState := ⟨[], 0, none, none, false, 0, 0, []⟩

/-- A state in which every entry gate passes: current day already set, zero
daily pnl baseline, no trades, empty registries. -/
def gateOkSt : BotState := ⟨[], 0, some "2026-01-01", some 0, false, 0, 0, []⟩

/-- A state with a fully populated exit-registry entry for BTC/USD. -/
def regSt : BotState := ⟨[("BTC/USD", ⟨some 1, some 2, some 3⟩)], 4, none, none, false, 0, 0, []⟩

/-- Broker snapshot: live price 400, flat position, ample cash. -/
def c3Env : BuyEnv := ⟨"2026-01-01", 1000, 0, 10000, fun _ => .ok 0, fun _ => some 400⟩

/-- Broker snapshot: live price 100, flat position, ample cash. -/
def live100Env : BuyEnv := ⟨"2026-01-01", 1000, 0, 10000, fun _ => .ok 0, fun _ => some 100⟩

/-- Broker snapshot: live price never available, position becomes visible at
the first poll of the fill loop (reads 0 and 1 are flat, all later reads 5). -/
def c5Env : BuyEnv :=
  ⟨"2026-01-01", 1000, 0, 10000, fun n => if n ≤ 1 then .ok 0 else .ok 5, fun _ => none⟩

/-- Broker snapshot: live price 100, position never becomes visible. -/
def c5TimeoutEnv : BuyEnv := ⟨"2026-01-01", 1000, 0, 10000, fun _ => .ok 0, fun _ => some 100⟩

/-- A state one trade short of nothing: the trade-count cap (6) is reached. -/
def c7TripSt : BotState := ⟨[], 0, some "d", some 0, false, 6, 0, []⟩

/-- Sell-side broker snapshot: position of 2 units, no price available. -/
def c10Env : SellEnv := ⟨fun _ => .ok 2, fun _ => none⟩

/-! Helper lemmas. -/

theorem allowedBTC : allowed_pair "BTC/USD" = true := by decide

theorem alookup_aset_self {α : Type} (l : List (Pair × α)) (p : Pair) (v : α) :
    alookup (aset l p v) p = some v := by
  induction l with
  | nil => simp [aset, alookup]
  | cons hd tl ih =>
      obtain ⟨q, w⟩ := hd
      by_cases h : q = p
      · simp [aset, alookup, h]
      · simp [aset, alookup, h, ih]

theorem alookup_aset_ne {α : Type} (l : List (Pair × α)) (p p2 : Pair) (v : α)
    (h : p2 ≠ p) : alookup (aset l p v) p2 = alookup l p2 := by
  have h2 : p ≠ p2 := Ne.symm h
  induction l with
  | nil => simp [aset, alookup, h2]
  | cons hd tl ih =>
      obtain ⟨q, w⟩ := hd
      by_cases hq : q = p
      · subst hq
        simp [aset, alookup, h2]
      · simp [aset, alookup, hq, ih]

theorem alookup_eq_none_of_not_mem {α : Type} (l : List (Pair × α)) (p : Pair)
    (h : p ∉ l.map Prod.fst) : alookup l p = none := by
  induction l with
  | nil => rfl
  | cons hd tl ih =>
      obtain ⟨q, w⟩ := hd
      simp only [List.map_cons, List.mem_cons, not_or] at h
      simp [alookup, Ne.symm h.1, ih h.2]

theorem alookup_apop_self {α : Type} (l : List (Pair × α)) (p : Pair)
    (hnd : (l.map Prod.fst).Nodup) : alookup (apop l p) p = none := by
  induction l with
  | nil => rfl
  | cons hd tl ih =>
      obtain ⟨q, w⟩ := hd
      simp only [List.map_cons, List.nodup_cons] at hnd
      by_cases hq : q = p
      · subst hq
        simp only [apop, if_pos rfl]
        exact alookup_eq_none_of_not_mem tl q hnd.1
      · simp [apop, alookup, hq, ih hnd.2]

theorem reset_day_key (dayKey : String) (equity : ℚ) (st : BotState) :
    (reset_day_if_needed dayKey equity st).day = some dayKey := by
  unfold reset_day_if_needed
  by_cases h : st.day = some dayKey <;> simp [h]

theorem enforce_cases (cfg : Config) (dayKey : String) (equity : ℚ) (st : BotState) :
    (enforce_daily_governors cfg dayKey equity st).1.day = some dayKey
    ∧ ((enforce_daily_governors cfg dayKey equity st).2.1 = false →
        (enforce_daily_governors cfg dayKey equity st).1.disabled = true) := by
  have hday := reset_day_key dayKey equity st
  have hd2 : (daily_pnl equity (reset_day_if_needed dayKey equity st)).1.day
      = (reset_day_if_needed dayKey equity st).day := by
    unfold daily_pnl
    cases (reset_day_if_needed dayKey equity st).startEquity <;> rfl
  unfold enforce_daily_governors
  dsimp only
  split_ifs with h1 h2 h3 h4 h5 <;> simp_all

theorem enforce_disabled (cfg : Config) (dayKey : String) (equity : ℚ) (st : BotState)
    (hday : st.day = some dayKey) (hdis : st.disabled = true) :
    (enforce_daily_governors cfg dayKey equity st).1.disabled = true
    ∧ (enforce_daily_governors cfg dayKey equity st).1.day = some dayKey
    ∧ (enforce_daily_governors cfg dayKey equity st).1.trades = st.trades
    ∧ (enforce_daily_governors cfg dayKey equity st).1.losers = st.losers
    ∧ (enforce_daily_governors cfg dayKey equity st).2.1 = false
    ∧ (enforce_daily_governors cfg dayKey equity st).2.2 = GovStatus.disabledForDay := by
  unfold enforce_daily_governors reset_day_if_needed daily_pnl
  cases hse : st.startEquity <;> simp [hday, hdis, hse]

theorem runGate_disabled (cfg : Config) (dayKey : String) (st : BotState) (es : List ℚ)
    (hday : st.day = some dayKey) (hdis : st.disabled = true) :
    ∀ b ∈ runGate cfg dayKey st es, b = false := by
  induction es generalizing st with
  | nil =>
      intro b hb
      simp [runGate] at hb
  | cons e rest ih =>
      intro b hb
      have h := enforce_disabled cfg dayKey e st hday hdis
      simp only [runGate, List.mem_cons] at hb
      rcases hb with hb | hb
      · rw [hb]
        exact h.2.2.2.2.1
      · exact ih (enforce_daily_governors cfg dayKey e st).1 h.2.1 h.1 b hb

/-! Claim theorems. -/

/-- C1: the spec claims the per-tier rounded take-profit quantities never sum
above the filled quantity.  The code scales before rounding only, so at the
filled quantity 0.000000015 with the default fractions 0.4/0.4 both tiers
round up to 0.00000001 and the submitted quantities sum to 0.00000002, which
exceeds the filled quantity — contradicting the code's own comments
("Avoid rounding pushing totals over qty", "Ensure sum(tp1,tp2) <= qty").
This theorem evaluates `place_take_profits` at that failing input. -/
theorem C1_rounding_oversell :
    (place_take_profits defaultConfig "BTC/USD" (0.000000015 : ℚ) 100 st0).2 =
      [Action.submit 0 ⟨"BTC/USD", "sell", "limit", "gtc", 0.00000001, some (100.60 : ℚ), none⟩,
       Action.submit 1 ⟨"BTC/USD", "sell", "limit", "gtc", 0.00000001, some (101.20 : ℚ), none⟩]
    ∧ (0.00000001 : ℚ) + 0.00000001 > 0.000000015 := by
  norm_num [place_take_profits, defaultConfig, st0, alookup, aset, emptyEntry, r, roundTo,
    roundHalfEven]

/-- C4: worked example.  Reference price 100, quantity 10, default
configuration: TP1 is submitted at 100.60 for quantity 4, TP2 at 101.20 for
quantity 4, and the stop with trigger 99.10 and limit 98.95135 (within
0.0002 of the spec's ≈ 98.9515) for the full quantity 10, so the 2 units not
listed by the take-profits are covered by the stop. -/
theorem C4_worked_example :
    (place_take_profits defaultConfig "BTC/USD" 10 100 st0).2 =
      [Action.submit 0 ⟨"BTC/USD", "sell", "limit", "gtc", 4, some (100.60 : ℚ), none⟩,
       Action.submit 1 ⟨"BTC/USD", "sell", "limit", "gtc", 4, some (101.20 : ℚ), none⟩]
    ∧ (place_or_replace_stop defaultConfig "BTC/USD" 10 100
        (place_take_profits defaultConfig "BTC/USD" 10 100 st0).1).2 =
      [Action.submit 2 ⟨"BTC/USD", "sell", "stop_limit", "gtc", 10,
        some (98.95135 : ℚ), some (99.10 : ℚ)⟩]
    ∧ (98.9515 : ℚ) - 98.95135 = 0.00015
    ∧ (0.00015 : ℚ) ≤ 0.0002
    ∧ (10 : ℚ) - 4 - 4 = 2 := by
  refine ⟨?_, ?_, by norm_num, by norm_num, by norm_num⟩
  · norm_num [place_take_profits, defaultConfig, st0, alookup, aset, emptyEntry, r, roundTo,
      roundHalfEven]
  · norm_num [place_take_profits, place_or_replace_stop, defaultConfig, st0, alookup, aset,
      emptyEntry, r, roundTo, roundHalfEven]

/-- C6 counterexample: the claim says a tier whose sized quantity rounds to
zero is omitted individually rather than submitted as a zero-quantity order.
At filled quantity 0.00000001 with the default fractions both tier
quantities are positive before rounding (0.000000004), so the pre-round
guard does not fire, and both tiers are submitted with quantity rounded to
0 — zero-quantity orders are submitted, not omitted. -/
theorem C6_counterexample :
    (place_take_profits defaultConfig "BTC/USD" (0.00000001 : ℚ) 100 st0).2 =
      [Action.submit 0 ⟨"BTC/USD", "sell", "limit", "gtc", 0, some (100.60 : ℚ), none⟩,
       Action.submit 1 ⟨"BTC/USD", "sell", "limit", "gtc", 0, some (101.20 : ℚ), none⟩]
    ∧ 0 < (0.00000001 : ℚ) * defaultConfig.TP1_FRAC := by
  norm_num [place_take_profits, defaultConfig, st0, alookup, aset, emptyEntry, r, roundTo,
    roundHalfEven]

/-- C6 amended: `place_take_profits` skips both take-profits together when
either raw tier quantity (fraction × quantity) is non-positive (which for a
positive quantity only happens when a configured fraction is ≤ 0); otherwise
it always submits exactly the two tier orders, with each quantity rounded by
`r` — there is no per-tier omission, no broker-minimum check, and a tier
whose quantity rounds to zero is submitted with quantity 0.  The protective
stop is placed separately by the caller in either case. -/
theorem C6_amended (cfg : Config) (pair : Pair) (qty ref : ℚ) (st : BotState)
    (hq : 0 < qty) :
    ((qty * cfg.TP1_FRAC ≤ 0 ∨ qty * cfg.TP2_FRAC ≤ 0) →
      place_take_profits cfg pair qty ref st = (st, []))
    ∧ (0 < qty * cfg.TP1_FRAC → 0 < qty * cfg.TP2_FRAC →
      (place_take_profits cfg pair qty ref st).2 =
        [Action.submit st.nextId
          ⟨pair, "sell", "limit", "gtc",
           r (qty * cfg.TP1_FRAC *
             (if qty < qty * cfg.TP1_FRAC + qty * cfg.TP2_FRAC then
                qty / (qty * cfg.TP1_FRAC + qty * cfg.TP2_FRAC) else 1)),
           some (r (ref * (1 + cfg.TP1_PCT))), none⟩,
         Action.submit (st.nextId + 1)
          ⟨pair, "sell", "limit", "gtc",
           r (qty * cfg.TP2_FRAC *
             (if qty < qty * cfg.TP1_FRAC + qty * cfg.TP2_FRAC then
                qty / (qty * cfg.TP1_FRAC + qty * cfg.TP2_FRAC) else 1)),
           some (r (ref * (1 + cfg.TP2_PCT))), none⟩]) := by
  constructor
  · intro h
    have hc : max 0 (qty * cfg.TP1_FRAC) ≤ 0 ∨ max 0 (qty * cfg.TP2_FRAC) ≤ 0 := by
      rcases h with h | h
      · exact Or.inl (max_le le_rfl h)
      · exact Or.inr (max_le le_rfl h)
    simp only [place_take_profits, if_neg (not_le.mpr hq), if_pos hc]
  · intro h1 h2
    have e1 : max 0 (qty * cfg.TP1_FRAC) = qty * cfg.TP1_FRAC := max_eq_right h1.le
    have e2 : max 0 (qty * cfg.TP2_FRAC) = qty * cfg.TP2_FRAC := max_eq_right h2.le
    have hc : ¬ (qty * cfg.TP1_FRAC ≤ 0 ∨ qty * cfg.TP2_FRAC ≤ 0) := by
      push_neg
      exact ⟨h1, h2⟩
    simp only [place_take_profits, if_neg (not_le.mpr hq), e1, e2, if_neg hc, gt_iff_lt]

/-- C6 witness: the amended theorem applied at quantity 10, reference 100 and
the default configuration: both take-profit tiers are submitted. -/
theorem C6_amended_witness :
    ((place_take_profits defaultConfig "BTC/USD" 10 100 st0).2).length = 2 := by
  rw [(C6_amended defaultConfig "BTC/USD" 10 100 st0 (by norm_num)).2
    (by norm_num [defaultConfig]) (by norm_num [defaultConfig])]
  rfl

/-- C3 counterexample: the claim divides the price deviation by the live
price.  The code divides by the hint price (bot.py line 171): with live
price 400 and hint 399 the entry is skipped with the deviation reason, even
though `|live − hint| / live = 1/400` does not exceed the configured maximum
deviation 0.0025 — so the claim's condition is false while the skip occurs. -/
theorem C3_counterexample :
    (do_buy defaultConfig c3Env "BTC/USD" (some 399) gateOkSt).2.2 =
      BuyResult.skippedTvDeviation 400 399
    ∧ ¬ (abs ((400 : ℚ) - 399) / 400 > defaultConfig.TV_PRICE_MAX_DEV) := by
  have habs : abs ((400 : ℚ) - 399) = 1 := by
    rw [show (400 : ℚ) - 399 = 1 by norm_num, abs_one]
  constructor
  · norm_num [do_buy, c3Env, gateOkSt, defaultConfig, enforce_daily_governors,
      reset_day_if_needed, daily_pnl, allowedBTC, alookup, get_qty, pyOr, truthy, tvPos,
      too_far_from_tv]
  · rw [habs]
    norm_num [defaultConfig]

/-- C5 counterexample: the claim says the fill observer returns as soon as
both the polled position quantity and the live reference price are positive.
In this run the live price fetch returns `None` at every call, yet `do_buy`
returns the full `bought` outcome at the first poll with a positive
quantity, using the hint price 100 as reference — the live reference price
is never consulted by the loop's return condition. -/
theorem C5_counterexample :
    (do_buy defaultConfig c5Env "BTC/USD" (some 100) gateOkSt).2.2 = BuyResult.bought 5 100
    ∧ ∀ n, c5Env.priceReads n = none := by
  constructor
  · norm_num [do_buy, c5Env, gateOkSt, defaultConfig, enforce_daily_governors,
      reset_day_if_needed, daily_pnl, allowedBTC, alookup, get_qty, pyOr, truthy, tvPos,
      too_far_from_tv, fillLoop, cleanup_if_flat, cancel_exits, place_take_profits,
      place_or_replace_stop, aset, r, roundTo, roundHalfEven, emptyEntry]
  · intro n
    rfl

/-- C2: for a positive quantity, `place_or_replace_stop` first cancels the
registered stop id when one exists and only then submits the new stop-limit
order; relative to a broker model in which the live stop orders for the pair
initially coincide with the registered stop id, every intermediate action
leaves at most one live stop on the pair, and afterwards exactly the fresh
stop id is live and registered (the registry field itself can hold at most
one stop id). -/
theorem C2_single_stop (cfg : Config) (pair : Pair) (qty ref : ℚ) (st : BotState)
    (hq : 0 < qty) :
    (∀ i, regSl st pair = some i →
      (place_or_replace_stop cfg pair qty ref st).2 =
        [Action.cancel i,
         Action.submit st.nextId
           ⟨pair, "sell", "stop_limit", "gtc", r qty,
            some (r (r (ref * (1 - cfg.SL_PCT)) * (1 - cfg.STOP_LIMIT_SLIP_PCT))),
            some (r (ref * (1 - cfg.SL_PCT)))⟩])
    ∧ (∀ k, (runLiveStops pair (slL (regSl st pair))
        ((place_or_replace_stop cfg pair qty ref st).2.take k)).length ≤ 1)
    ∧ runLiveStops pair (slL (regSl st pair)) (place_or_replace_stop cfg pair qty ref st).2
        = [st.nextId]
    ∧ regSl (place_or_replace_stop cfg pair qty ref st).1 pair = some st.nextId := by
  simp only [place_or_replace_stop, if_neg (not_le.mpr hq), regSl]
  cases he : alookup st.exitOrders pair with
  | none =>
      refine ⟨by simp [he], ?_, ?_, ?_⟩
      · intro k
        match k with
        | 0 => simp [he, emptyEntry, runLiveStops, slL]
        | k + 1 =>
            simp [he, emptyEntry, runLiveStops, slL, stepLiveStops, List.take]
      · simp [he, emptyEntry, runLiveStops, slL, stepLiveStops]
      · simp [he, emptyEntry, alookup_aset_self]
  | some e =>
      cases hsl : e.sl with
      | none =>
          refine ⟨by simp [he, hsl], ?_, ?_, ?_⟩
          · intro k
            match k with
            | 0 => simp [he, hsl, runLiveStops, slL]
            | k + 1 =>
                simp [he, hsl, runLiveStops, slL, stepLiveStops, List.take]
          · simp [he, hsl, runLiveStops, slL, stepLiveStops]
          · simp [he, hsl, alookup_aset_self]
      | some i =>
          refine ⟨by simp [he, hsl], ?_, ?_, ?_⟩
          · intro k
            match k with
            | 0 => simp [he, hsl, runLiveStops, slL]
            | 1 => simp [he, hsl, runLiveStops, slL, stepLiveStops, List.take]
            | k + 2 =>
                simp [he, hsl, runLiveStops, slL, stepLiveStops, List.take]
          · simp [he, hsl, runLiveStops, slL, stepLiveStops]
          · simp [he, hsl, alookup_aset_self]

/-- C2 witness: with a registered stop id 3 for BTC/USD, the replacement run
cancels id 3 first, then submits the new stop, and exactly the fresh id 4 is
live and registered afterwards. -/
theorem C2_single_stop_witness :
    regSl (place_or_replace_stop defaultConfig "BTC/USD" 5 100 regSt).1 "BTC/USD" = some 4 :=
  (C2_single_stop defaultConfig "BTC/USD" 5 100 regSt (by norm_num)).2.2.2

/-- C8: when a reconciliation cycle reads a positive quantity and a usable
price for a registered pair, it cancels and replaces only the protective
stop, resized to the current quantity: the registry keeps the same tp1/tp2
ids with only the sl id replaced by the fresh one, the emitted actions are
exactly the cancel of the old stop (when present) followed by the one
stop-limit submission sized `r q`, and other pairs' entries are untouched. -/
theorem C8_reconcile_stop_only (cfg : Config) (pair : Pair) (q p : ℚ) (st : BotState)
    (e : RegEntry) (hq : 0 < q) (hp : p ≠ 0)
    (he : alookup st.exitOrders pair = some e) :
    alookup (reconcile_pair cfg pair (Except.ok q) (some p) st).1.exitOrders pair
        = some { e with sl := some st.nextId }
    ∧ (reconcile_pair cfg pair (Except.ok q) (some p) st).2 =
        (match e.sl with | some i => [Action.cancel i] | none => []) ++
        [Action.submit st.nextId
          ⟨pair, "sell", "stop_limit", "gtc", r q,
           some (r (r (p * (1 - cfg.SL_PCT)) * (1 - cfg.STOP_LIMIT_SLIP_PCT))),
           some (r (p * (1 - cfg.SL_PCT)))⟩]
    ∧ (∀ p2, p2 ≠ pair →
        alookup (reconcile_pair cfg pair (Except.ok q) (some p) st).1.exitOrders p2
          = alookup st.exitOrders p2) := by
  have ht : truthy (some p) = true := by simp [truthy, hp]
  refine ⟨?_, ?_, ?_⟩ <;>
    simp only [reconcile_pair, get_qty, if_neg (not_le.mpr hq), ht, if_true,
      place_or_replace_stop, he, Option.getD_some, Option.getD]
  · simp [alookup_aset_self]
  · intro p2 hp2
    simp [alookup_aset_ne st.exitOrders pair p2 _ hp2]

/-- C8 witness: applying the theorem to a registry holding tp ids 1, 2 and
stop id 3 for BTC/USD with quantity 2 and price 100: the tp ids survive and
the stop id is replaced by the fresh id 4. -/
theorem C8_reconcile_stop_only_witness :
    alookup (reconcile_pair defaultConfig "BTC/USD" (Except.ok 2) (some 100) regSt).1.exitOrders
      "BTC/USD" = some ⟨some 1, some 2, some 4⟩ :=
  (C8_reconcile_stop_only defaultConfig "BTC/USD" 2 100 regSt ⟨some 1, some 2, some 3⟩
    (by norm_num) (by norm_num) (by simp [regSt, alookup])).1

/-- C9: when the broker position lookup raises for a registered pair,
`get_qty` maps the exception to 0, so the reconciliation cycle treats the
pair as flat: it cancels every registered exit order id for the pair and
removes the registry entry, regardless of the actual broker position. -/
theorem C9_error_treated_flat (cfg : Config) (pair : Pair) (st : BotState) (e : RegEntry)
    (price : Option ℚ) (he : alookup st.exitOrders pair = some e)
    (hnd : (st.exitOrders.map Prod.fst).Nodup) :
    get_qty (Except.error ()) = 0
    ∧ (reconcile_pair cfg pair (Except.error ()) price st).2 = (entryIds e).map Action.cancel
    ∧ (reconcile_pair cfg pair (Except.error ()) price st).1.exitOrders
        = apop st.exitOrders pair
    ∧ alookup (reconcile_pair cfg pair (Except.error ()) price st).1.exitOrders pair = none := by
  refine ⟨rfl, ?_, ?_, ?_⟩ <;>
    simp only [reconcile_pair, get_qty, le_refl, if_true, if_pos, cancel_exits, he]
  exact alookup_apop_self st.exitOrders pair hnd

/-- C9 witness: applying the theorem to the registry holding ids 1, 2, 3 for
BTC/USD: the cycle cancels all three ids. -/
theorem C9_error_treated_flat_witness :
    (reconcile_pair defaultConfig "BTC/USD" (Except.error ()) none regSt).2 =
      [Action.cancel 1, Action.cancel 2, Action.cancel 3] := by
  have h := (C9_error_treated_flat defaultConfig "BTC/USD" regSt ⟨some 1, some 2, some 3⟩ none
    (by simp [regSt, alookup]) (by simp [regSt])).2.1
  simpa [entryIds] using h

/-- C10: for a positive position with no live price and no usable hint,
`do_sell` returns the no-current-price error only after it has already
cancelled all registered exit orders and removed the pair's registry entry,
and it submits no liquidation order — the error is not atomic. -/
theorem C10_sell_cancels_before_error (cfg : Config) (env : SellEnv) (pair : Pair)
    (tvPrice : Option ℚ) (st : BotState) (e : RegEntry) (q : ℚ)
    (hq : 0 < q) (h0 : env.qtyReads 0 = Except.ok q) (h1 : env.qtyReads 1 = Except.ok q)
    (hpr : env.priceReads 0 = none) (htv : truthy tvPrice = false)
    (he : alookup st.exitOrders pair = some e)
    (hnd : (st.exitOrders.map Prod.fst).Nodup) :
    (do_sell cfg env pair tvPrice st).2.2 = SellResult.errorNoCurrentPrice
    ∧ (do_sell cfg env pair tvPrice st).2.1 = (entryIds e).map Action.cancel
    ∧ alookup (do_sell cfg env pair tvPrice st).1.exitOrders pair = none
    ∧ ∀ a ∈ (do_sell cfg env pair tvPrice st).2.1, ∀ oid spec, a ≠ Action.submit oid spec := by
  have hcur : pyOr (env.priceReads 0) tvPrice = tvPrice := by
    simp [pyOr, hpr, truthy]
  have hmain : do_sell cfg env pair tvPrice st =
      ({ st with exitOrders := apop st.exitOrders pair },
       (entryIds e).map Action.cancel, SellResult.errorNoCurrentPrice) := by
    simp only [do_sell, cleanup_if_flat, get_qty, h0, h1, if_neg (not_le.mpr hq),
      cancel_exits, he, hcur, htv, List.nil_append]
    simp
  refine ⟨by rw [hmain], by rw [hmain], ?_, ?_⟩
  · rw [hmain]
    exact alookup_apop_self st.exitOrders pair hnd
  · rw [hmain]
    intro a ha oid spec
    simp only [List.mem_map] at ha
    obtain ⟨i, _, rfl⟩ := ha
    simp

/-- C10 witness: applying the theorem to a 2-unit position with registered
ids 1, 2, 3 and no price source: the result is the no-current-price error. -/
theorem C10_sell_cancels_before_error_witness :
    (do_sell defaultConfig c10Env "BTC/USD" none regSt).2.2 = SellResult.errorNoCurrentPrice :=
  (C10_sell_cancels_before_error defaultConfig c10Env "BTC/USD" none regSt
    ⟨some 1, some 2, some 3⟩ 2 (by norm_num) rfl rfl rfl rfl
    (by simp [regSt, alookup]) (by simp [regSt])).1

/-- C7: once any governor condition trips (the gate disallows), the disabled
flag is set and the day key is recorded; every subsequent gate evaluation
under the same day key disallows (for any equity readings), reporting the
already-disabled status and leaving the trade and loser counters unchanged;
and `reset_day_if_needed` clears the flag and counters exactly when the day
key differs from the recorded one (lazy daily reset), being the identity
under the same day key. -/
theorem C7_governor_sticky (cfg : Config) (dayKey : String) (equity : ℚ) (st : BotState)
    (htrip : (enforce_daily_governors cfg dayKey equity st).2.1 = false) :
    (enforce_daily_governors cfg dayKey equity st).1.disabled = true
    ∧ (enforce_daily_governors cfg dayKey equity st).1.day = some dayKey
    ∧ (∀ es, ∀ b ∈ runGate cfg dayKey (enforce_daily_governors cfg dayKey equity st).1 es,
        b = false)
    ∧ (∀ e2,
        (enforce_daily_governors cfg dayKey e2
          (enforce_daily_governors cfg dayKey equity st).1).2.1 = false
        ∧ (enforce_daily_governors cfg dayKey e2
            (enforce_daily_governors cfg dayKey equity st).1).2.2 = GovStatus.disabledForDay
        ∧ (enforce_daily_governors cfg dayKey e2
            (enforce_daily_governors cfg dayKey equity st).1).1.trades
          = (enforce_daily_governors cfg dayKey equity st).1.trades
        ∧ (enforce_daily_governors cfg dayKey e2
            (enforce_daily_governors cfg dayKey equity st).1).1.losers
          = (enforce_daily_governors cfg dayKey equity st).1.losers)
    ∧ (∀ k2 e2 (st2 : BotState), st2.day ≠ some k2 →
        reset_day_if_needed k2 e2 st2 =
          { st2 with
              day := some k2
              startEquity := some e2
              disabled := false
              trades := 0
              losers := 0 })
    ∧ (∀ k2 e2 (st2 : BotState), st2.day = some k2 → reset_day_if_needed k2 e2 st2 = st2) := by
  have hc := enforce_cases cfg dayKey equity st
  have hdis := hc.2 htrip
  have hday := hc.1
  refine ⟨hdis, hday, ?_, ?_, ?_, ?_⟩
  · intro es
    exact runGate_disabled cfg dayKey _ es hday hdis
  · intro e2
    have h := enforce_disabled cfg dayKey e2 _ hday hdis
    exact ⟨h.2.2.2.2.1, h.2.2.2.2.2, h.2.2.1, h.2.2.2.1⟩
  · intro k2 e2 st2 hne
    unfold reset_day_if_needed
    rw [if_pos hne]
  · intro k2 e2 st2 heq
    unfold reset_day_if_needed
    rw [if_neg (by simp [heq])]

/-- C7 witness: in a state with the trade cap reached (6 trades) under day
key "d", the gate trips, and the next evaluation under the same day key
disallows with the already-disabled status. -/
theorem C7_governor_sticky_witness :
    (enforce_daily_governors defaultConfig "d" 5
        (enforce_daily_governors defaultConfig "d" 0 c7TripSt).1).2.1 = false
    ∧ (enforce_daily_governors defaultConfig "d" 5
        (enforce_daily_governors defaultConfig "d" 0 c7TripSt).1).2.2
      = GovStatus.disabledForDay :=
  ⟨((C7_governor_sticky defaultConfig "d" 0 c7TripSt
      (by norm_num [enforce_daily_governors, reset_day_if_needed, daily_pnl, c7TripSt,
        defaultConfig])).2.2.2.1 5).1,
   ((C7_governor_sticky defaultConfig "d" 0 c7TripSt
      (by norm_num [enforce_daily_governors, reset_day_if_needed, daily_pnl, c7TripSt,
        defaultConfig])).2.2.2.1 5).2.1⟩

theorem enforce_ok (cfg : Config) (dayKey : String) (equity : ℚ) (st : BotState) (s : ℚ)
    (hday : st.day = some dayKey) (hse : st.startEquity = some s)
    (hdis : st.disabled = false)
    (hprofit : equity - s < cfg.DAILY_PROFIT_STOP)
    (hloss : cfg.DAILY_LOSS_STOP < equity - s)
    (htr : st.trades < cfg.MAX_TRADES_PER_DAY)
    (hlo : st.losers < cfg.MAX_LOSERS_PER_DAY) :
    enforce_daily_governors cfg dayKey equity st = (st, true, GovStatus.ok) := by
  unfold enforce_daily_governors reset_day_if_needed daily_pnl
  simp [hday, hse, hdis, not_le.mpr hprofit, not_le.mpr hloss, not_le.mpr htr, not_le.mpr hlo]

theorem fillLoop_result_state (cfg : Config) (env : BuyEnv) (pair : Pair) (ref : ℚ)
    (fuel k : ℕ) (st st2 : BotState) :
    (fillLoop cfg env pair ref fuel k st).2.2 = (fillLoop cfg env pair ref fuel k st2).2.2 := by
  induction fuel generalizing k st st2 with
  | zero => rfl
  | succ m ih =>
      by_cases h : 0 < get_qty (env.qtyReads k)
      · simp only [fillLoop, if_pos h]
      · simp only [fillLoop, if_neg h]
        exact ih (k + 1) st st2

theorem fillLoop_shape (cfg : Config) (env : BuyEnv) (pair : Pair) (ref : ℚ)
    (fuel k : ℕ) (st : BotState) :
    (fillLoop cfg env pair ref fuel k st).2.2 = BuyResult.buySentNoPositionVisible ∨
    ∃ q, (fillLoop cfg env pair ref fuel k st).2.2 = BuyResult.bought q ref := by
  induction fuel generalizing k st with
  | zero => exact Or.inl rfl
  | succ m ih =>
      by_cases h : 0 < get_qty (env.qtyReads k)
      · right
        refine ⟨get_qty (env.qtyReads (k + 2)), ?_⟩
        simp only [fillLoop, if_pos h]
      · simp only [fillLoop, if_neg h]
        exact ih (k + 1) st

theorem fillLoop_timeout (cfg : Config) (env : BuyEnv) (pair : Pair) (ref : ℚ)
    (fuel k : ℕ) (st : BotState)
    (h : ∀ n, n < fuel → get_qty (env.qtyReads (k + n)) ≤ 0) :
    (fillLoop cfg env pair ref fuel k st).2.2 = BuyResult.buySentNoPositionVisible := by
  induction fuel generalizing k st with
  | zero => rfl
  | succ m ih =>
      have h0 : get_qty (env.qtyReads k) ≤ 0 := by simpa using h 0 (Nat.succ_pos m)
      simp only [fillLoop, if_neg (not_lt.mpr h0)]
      refine ih (k + 1) st ?_
      intro n hn
      have hrw : k + 1 + n = k + (n + 1) := by omega
      rw [hrw]
      exact h (n + 1) (Nat.succ_lt_succ hn)

theorem fillLoop_hit (cfg : Config) (env : BuyEnv) (pair : Pair) (ref : ℚ)
    (fuel k n : ℕ) (st : BotState) (hn : n < fuel)
    (hq : 0 < get_qty (env.qtyReads (k + n)))
    (hbefore : ∀ m, m < n → get_qty (env.qtyReads (k + m)) ≤ 0) :
    (fillLoop cfg env pair ref fuel k st).2.2 =
      BuyResult.bought (get_qty (env.qtyReads (k + n + 2))) ref := by
  induction fuel generalizing k n st with
  | zero => exact absurd hn (Nat.not_lt_zero n)
  | succ m ih =>
      cases n with
      | zero =>
          have hq0 : 0 < get_qty (env.qtyReads k) := by simpa using hq
          simp only [fillLoop, if_pos hq0]
      | succ n2 =>
          have h0 : get_qty (env.qtyReads k) ≤ 0 := by simpa using hbefore 0 (Nat.succ_pos n2)
          simp only [fillLoop, if_neg (not_lt.mpr h0)]
          have hq2 : 0 < get_qty (env.qtyReads (k + 1 + n2)) := by
            have hrw : k + 1 + n2 = k + (n2 + 1) := by omega
            rw [hrw]
            exact hq
          have hb2 : ∀ m, m < n2 → get_qty (env.qtyReads (k + 1 + m)) ≤ 0 := by
            intro m hm
            have hrw : k + 1 + m = k + (m + 1) := by omega
            rw [hrw]
            exact hbefore (m + 1) (Nat.succ_lt_succ hm)
          rw [ih (k + 1) n2 st (Nat.lt_of_succ_lt_succ hn) hq2 hb2]
          have hrw : k + 1 + n2 + 2 = k + (n2 + 1) + 2 := by omega
          rw [hrw]

theorem do_buy_loop (cfg : Config) (env : BuyEnv) (pair : Pair) (tvPrice : Option ℚ)
    (st : BotState) (s live : ℚ)
    (hday : st.day = some env.dayKey) (hse : st.startEquity = some s)
    (hdis : st.disabled = false)
    (hprofit : env.equity - s < cfg.DAILY_PROFIT_STOP)
    (hloss : cfg.DAILY_LOSS_STOP < env.equity - s)
    (htr : st.trades < cfg.MAX_TRADES_PER_DAY)
    (hlo : st.losers < cfg.MAX_LOSERS_PER_DAY)
    (hallow : allowed_pair pair = true)
    (hcd : cfg.COOLDOWN_SECONDS ≤ env.now - (alookup st.lastBuyTs pair).getD 0)
    (hlong : get_qty (env.qtyReads 0) ≤ 0)
    (hlive : env.priceReads 0 = some live) (hlv : live ≠ 0)
    (hdev : (tvPos tvPrice && too_far_from_tv cfg live (tvPrice.getD 0)) = false)
    (hcash : 0 < min cfg.MAX_POSITION_DOLLARS (env.cash * (95/100))) :
    (do_buy cfg env pair tvPrice st).2.2 =
      (fillLoop cfg env pair ((pyOr (env.priceReads 1) (pyOr tvPrice (some live))).getD 0)
        14 2 st).2.2 := by
  have hgov := enforce_ok cfg env.dayKey env.equity st s hday hse hdis hprofit hloss htr hlo
  have hcur : pyOr (env.priceReads 0) tvPrice = some live := by
    rw [hlive]
    simp [pyOr, truthy, hlv]
  have htl : truthy (some live) = true := by simp [truthy, hlv]
  have hcd2 : ¬ (env.now - (alookup st.lastBuyTs pair).getD 0 < cfg.COOLDOWN_SECONDS) :=
    not_lt.mpr hcd
  have hlong2 : ¬ (0 < get_qty (env.qtyReads 0)) := not_lt.mpr hlong
  have hn2 : ¬ (max 0 (min cfg.MAX_POSITION_DOLLARS (env.cash * (95/100))) ≤ 0) :=
    not_le.mpr (lt_of_lt_of_le hcash (le_max_right 0 _))
  simp only [do_buy, hgov, hcur, htl, Option.getD_some, hallow, hdev, if_neg hcd2,
    if_neg hlong2, if_neg hn2, Bool.false_eq_true, if_false, Bool.true_eq_false]
  exact fillLoop_result_state cfg env pair _ 14 2 _ st

theorem do_buy_nocash (cfg : Config) (env : BuyEnv) (pair : Pair) (tvPrice : Option ℚ)
    (st : BotState) (s live : ℚ)
    (hday : st.day = some env.dayKey) (hse : st.startEquity = some s)
    (hdis : st.disabled = false)
    (hprofit : env.equity - s < cfg.DAILY_PROFIT_STOP)
    (hloss : cfg.DAILY_LOSS_STOP < env.equity - s)
    (htr : st.trades < cfg.MAX_TRADES_PER_DAY)
    (hlo : st.losers < cfg.MAX_LOSERS_PER_DAY)
    (hallow : allowed_pair pair = true)
    (hcd : cfg.COOLDOWN_SECONDS ≤ env.now - (alookup st.lastBuyTs pair).getD 0)
    (hlong : get_qty (env.qtyReads 0) ≤ 0)
    (hlive : env.priceReads 0 = some live) (hlv : live ≠ 0)
    (hdev : (tvPos tvPrice && too_far_from_tv cfg live (tvPrice.getD 0)) = false)
    (hcash2 : min cfg.MAX_POSITION_DOLLARS (env.cash * (95/100)) ≤ 0) :
    (do_buy cfg env pair tvPrice st).2.2 = BuyResult.errorNoCash := by
  have hgov := enforce_ok cfg env.dayKey env.equity st s hday hse hdis hprofit hloss htr hlo
  have hcur : pyOr (env.priceReads 0) tvPrice = some live := by
    rw [hlive]
    simp [pyOr, truthy, hlv]
  have htl : truthy (some live) = true := by simp [truthy, hlv]
  have hcd2 : ¬ (env.now - (alookup st.lastBuyTs pair).getD 0 < cfg.COOLDOWN_SECONDS) :=
    not_lt.mpr hcd
  have hlong2 : ¬ (0 < get_qty (env.qtyReads 0)) := not_lt.mpr hlong
  have hn2 : max 0 (min cfg.MAX_POSITION_DOLLARS (env.cash * (95/100))) ≤ 0 :=
    max_le le_rfl hcash2
  simp only [do_buy, hgov, hcur, htl, Option.getD_some, hallow, hdev, if_neg hcd2,
    if_neg hlong2, if_pos hn2, Bool.false_eq_true, if_false, Bool.true_eq_false]

theorem do_buy_dev (cfg : Config) (env : BuyEnv) (pair : Pair) (tvPrice : Option ℚ)
    (st : BotState) (s live : ℚ)
    (hday : st.day = some env.dayKey) (hse : st.startEquity = some s)
    (hdis : st.disabled = false)
    (hprofit : env.equity - s < cfg.DAILY_PROFIT_STOP)
    (hloss : cfg.DAILY_LOSS_STOP < env.equity - s)
    (htr : st.trades < cfg.MAX_TRADES_PER_DAY)
    (hlo : st.losers < cfg.MAX_LOSERS_PER_DAY)
    (hallow : allowed_pair pair = true)
    (hcd : cfg.COOLDOWN_SECONDS ≤ env.now - (alookup st.lastBuyTs pair).getD 0)
    (hlong : get_qty (env.qtyReads 0) ≤ 0)
    (hlive : env.priceReads 0 = some live) (hlv : live ≠ 0)
    (hdev : (tvPos tvPrice && too_far_from_tv cfg live (tvPrice.getD 0)) = true) :
    (do_buy cfg env pair tvPrice st).2.2 =
      BuyResult.skippedTvDeviation live (tvPrice.getD 0) := by
  have hgov := enforce_ok cfg env.dayKey env.equity st s hday hse hdis hprofit hloss htr hlo
  have hcur : pyOr (env.priceReads 0) tvPrice = some live := by
    rw [hlive]
    simp [pyOr, truthy, hlv]
  have htl : truthy (some live) = true := by simp [truthy, hlv]
  have hcd2 : ¬ (env.now - (alookup st.lastBuyTs pair).getD 0 < cfg.COOLDOWN_SECONDS) :=
    not_lt.mpr hcd
  have hlong2 : ¬ (0 < get_qty (env.qtyReads 0)) := not_lt.mpr hlong
  simp only [do_buy, hgov, hcur, htl, Option.getD_some, hallow, hdev, if_neg hcd2,
    if_neg hlong2, Bool.false_eq_true, if_false, Bool.true_eq_false, if_true]

/-- C3 amended: with the entry gates passing (governor allows, pair allowed,
cooldown elapsed, no existing position) and a live price present, `do_buy`
returns the price-deviation skip exactly when the hint price is present and
positive and `|live − hint| / hint` exceeds the configured maximum deviation
— the denominator is the hint price, not the live price as the claim
states. -/
theorem C3_amended (cfg : Config) (env : BuyEnv) (pair : Pair) (tvPrice : Option ℚ)
    (st : BotState) (s live : ℚ)
    (hday : st.day = some env.dayKey) (hse : st.startEquity = some s)
    (hdis : st.disabled = false)
    (hprofit : env.equity - s < cfg.DAILY_PROFIT_STOP)
    (hloss : cfg.DAILY_LOSS_STOP < env.equity - s)
    (htr : st.trades < cfg.MAX_TRADES_PER_DAY)
    (hlo : st.losers < cfg.MAX_LOSERS_PER_DAY)
    (hallow : allowed_pair pair = true)
    (hcd : cfg.COOLDOWN_SECONDS ≤ env.now - (alookup st.lastBuyTs pair).getD 0)
    (hlong : get_qty (env.qtyReads 0) ≤ 0)
    (hlive : env.priceReads 0 = some live) (hlv : live ≠ 0) :
    (do_buy cfg env pair tvPrice st).2.2
        = BuyResult.skippedTvDeviation live (tvPrice.getD 0)
      ↔ truthy tvPrice = true ∧ 0 < tvPrice.getD 0
          ∧ cfg.TV_PRICE_MAX_DEV < abs (live - tvPrice.getD 0) / tvPrice.getD 0 := by
  cases hb : (tvPos tvPrice && too_far_from_tv cfg live (tvPrice.getD 0)) with
  | true =>
      have hres := do_buy_dev cfg env pair tvPrice st s live hday hse hdis hprofit hloss
        htr hlo hallow hcd hlong hlive hlv hb
      rw [Bool.and_eq_true] at hb
      obtain ⟨hb1, hb2⟩ := hb
      simp only [tvPos, Bool.and_eq_true] at hb1
      obtain ⟨ht1, ht2⟩ := hb1
      simp only [too_far_from_tv] at hb2
      exact iff_of_true hres ⟨ht1, of_decide_eq_true ht2, of_decide_eq_true hb2⟩
  | false =>
      refine iff_of_false ?_ ?_
      · by_cases hcash : 0 < min cfg.MAX_POSITION_DOLLARS (env.cash * (95/100))
        · rw [do_buy_loop cfg env pair tvPrice st s live hday hse hdis hprofit hloss htr hlo
            hallow hcd hlong hlive hlv hb hcash]
          rcases fillLoop_shape cfg env pair
              ((pyOr (env.priceReads 1) (pyOr tvPrice (some live))).getD 0) 14 2 st
            with h | ⟨q, h⟩ <;> simp [h]
        · rw [do_buy_nocash cfg env pair tvPrice st s live hday hse hdis hprofit hloss htr hlo
            hallow hcd hlong hlive hlv hb (not_lt.mp hcash)]
          simp
      · rintro ⟨h1, h2, h3⟩
        have htp : tvPos tvPrice = true := by simp [tvPos, h1, h2]
        have htf : too_far_from_tv cfg live (tvPrice.getD 0) = true := by
          simp [too_far_from_tv, gt_iff_lt, h3]
        simp [htp, htf] at hb

/-- C3 witness: the spec's worked instance, live price 100 and hint 100.30
with maximum deviation 0.0025: the deviation condition holds
(0.30 / 100.30 > 0.0025) and the entry is skipped with the deviation
reason. -/
theorem C3_amended_witness :
    (do_buy defaultConfig live100Env "BTC/USD" (some 100.30) gateOkSt).2.2 =
      BuyResult.skippedTvDeviation 100 100.30 := by
  have habs : abs ((100 : ℚ) - 100.30) = 0.30 := by
    rw [show ((100 : ℚ) - 100.30) = -(0.30) by norm_num, abs_neg, abs_of_pos (by norm_num)]
  refine (C3_amended defaultConfig live100Env "BTC/USD" (some 100.30) gateOkSt 0 100
    rfl rfl rfl (by norm_num [live100Env, gateOkSt, defaultConfig])
    (by norm_num [live100Env, gateOkSt, defaultConfig])
    (by norm_num [gateOkSt, defaultConfig]) (by norm_num [gateOkSt, defaultConfig])
    allowedBTC (by norm_num [live100Env, gateOkSt, defaultConfig, alookup])
    (by norm_num [live100Env, get_qty]) rfl (by norm_num)).mpr
    ⟨by norm_num [truthy], by norm_num, ?_⟩
  show defaultConfig.TV_PRICE_MAX_DEV < abs ((100 : ℚ) - 100.30) / 100.30
  rw [habs]
  norm_num [defaultConfig]

/-- C5 amended: with the entry gates passing, a live price present, no
deviation skip and positive notional, the fill loop polls only the position
quantity, at most 14 times: if every poll reads a non-positive quantity the
entry returns the distinct non-error outcome `buy_sent_no_position_visible_yet`
(neither `bought` nor an error); as soon as a poll reads a positive quantity
the entry returns `bought` with the reference price that was resolved once
before the loop (live price, else hint, else entry price) — the live price
is not re-checked by the loop's return condition. -/
theorem C5_amended (cfg : Config) (env : BuyEnv) (pair : Pair) (tvPrice : Option ℚ)
    (st : BotState) (s live : ℚ)
    (hday : st.day = some env.dayKey) (hse : st.startEquity = some s)
    (hdis : st.disabled = false)
    (hprofit : env.equity - s < cfg.DAILY_PROFIT_STOP)
    (hloss : cfg.DAILY_LOSS_STOP < env.equity - s)
    (htr : st.trades < cfg.MAX_TRADES_PER_DAY)
    (hlo : st.losers < cfg.MAX_LOSERS_PER_DAY)
    (hallow : allowed_pair pair = true)
    (hcd : cfg.COOLDOWN_SECONDS ≤ env.now - (alookup st.lastBuyTs pair).getD 0)
    (hlong : get_qty (env.qtyReads 0) ≤ 0)
    (hlive : env.priceReads 0 = some live) (hlv : live ≠ 0)
    (hdev : (tvPos tvPrice && too_far_from_tv cfg live (tvPrice.getD 0)) = false)
    (hcash : 0 < min cfg.MAX_POSITION_DOLLARS (env.cash * (95/100))) :
    ((∀ n, n < 14 → get_qty (env.qtyReads (2 + n)) ≤ 0) →
      (do_buy cfg env pair tvPrice st).2.2 = BuyResult.buySentNoPositionVisible)
    ∧ (∀ n, n < 14 → 0 < get_qty (env.qtyReads (2 + n)) →
        (∀ m, m < n → get_qty (env.qtyReads (2 + m)) ≤ 0) →
        (do_buy cfg env pair tvPrice st).2.2 =
          BuyResult.bought (get_qty (env.qtyReads (2 + n + 2)))
            ((pyOr (env.priceReads 1) (pyOr tvPrice (some live))).getD 0)) := by
  have hloop := do_buy_loop cfg env pair tvPrice st s live hday hse hdis hprofit hloss htr hlo
    hallow hcd hlong hlive hlv hdev hcash
  constructor
  · intro h
    rw [hloop]
    exact fillLoop_timeout cfg env pair _ 14 2 st h
  · intro n hn hq hb
    rw [hloop]
    exact fillLoop_hit cfg env pair _ 14 2 n st hn hq hb

/-- C5 witness: with a live price of 100 and a flat position at every one of
the 14 polls, the entry ends in the distinct `buy_sent_no_position_visible_yet`
outcome. -/
theorem C5_amended_witness :
    (do_buy defaultConfig c5TimeoutEnv "BTC/USD" none gateOkSt).2.2 =
      BuyResult.buySentNoPositionVisible :=
  (C5_amended defaultConfig c5TimeoutEnv "BTC/USD" none gateOkSt 0 100
    rfl rfl rfl (by norm_num [c5TimeoutEnv, gateOkSt, defaultConfig])
    (by norm_num [c5TimeoutEnv, gateOkSt, defaultConfig])
    (by norm_num [gateOkSt, defaultConfig]) (by norm_num [gateOkSt, defaultConfig])
    allowedBTC (by norm_num [c5TimeoutEnv, gateOkSt, defaultConfig, alookup])
    (by norm_num [c5TimeoutEnv, get_qty]) rfl (by norm_num)
    (by simp [tvPos, truthy]) (by norm_num [c5TimeoutEnv, defaultConfig])).1
    (fun n _ => by norm_num [c5TimeoutEnv, get_qty])

end Bot
